import Mathlib

/-!
Shallow embedding of the RusDooM core: byte-level lump decoding (`utils.rs`,
`map_items.rs`), the per-level data store (`map.rs`), the BSP visibility walk
and FOV test (`level.rs`), the angle algebra (`angle.rs`, with `f64` modelled
as the real numbers), and the WAD container parser (`wad.rs`).

Modelling conventions, used throughout:
* a byte buffer is a `List Nat` of byte values;
* Rust `assert!`-guarded indexing (`checked_slice`, `Bytes` indexing) is
  modelled totally via `List.getD`/`take`/`drop`; every theorem below that
  depends on an index keeps it in the range where the Rust code does not
  panic, so the defaulted branch is never relied upon;
* `f64` arithmetic is modelled over `ℝ` (Rust `%` on floats is the
  truncated remainder, see `rustRem`);
* the palette / graphics / font resources are external collaborators
  (spec section 1); the parser model keeps just the fields of their state
  that the load-time validation reads.
-/

namespace RusDoom

/-- Slice `l[a..b]` of a byte buffer (start inclusive, end exclusive),
mirroring Rust's `&buf[a..b]`. -/
def listSlice (l : List Nat) (a b : Nat) : List Nat :=
  (l.drop a).take (b - a)

/-- Model of `utils::buf_to_u16`: little-endian u16 from the first two bytes.
The Rust code asserts `buf.len() >= 2`; missing bytes default to 0 here. -/
def buf_to_u16 (buf : List Nat) : Nat :=
  (buf.getD 0 0) ||| ((buf.getD 1 0) <<< 8)

/-- Model of `utils::buf_to_i16`: the u16 reinterpreted as a two's-complement
signed 16-bit value. -/
def buf_to_i16 (buf : List Nat) : Int :=
  let u := buf_to_u16 buf
  if u < 0x8000 then (u : Int) else (u : Int) - 0x10000

/-- Model of `utils::buf_to_u32`: little-endian u32 from the first four bytes. -/
def buf_to_u32 (buf : List Nat) : Nat :=
  (buf.getD 0 0) ||| ((buf.getD 1 0) <<< 8) ||| ((buf.getD 2 0) <<< 16) ||| ((buf.getD 3 0) <<< 24)

/-- Model of `utils::buf_to_i16_vect`: decode `len / 2` consecutive i16
values, the i-th read at byte offset `i * 2`. -/
def buf_to_i16_vect (buf : List Nat) : List Int :=
  (List.range (buf.length / 2)).map (fun i => buf_to_i16 (buf.drop (i * 2)))

/-- Model of `utils::checked_slice`: the `item_size` bytes of record `idx`.
The Rust code asserts `end <= buf.len()`. -/
def checked_slice (buf : List Nat) (idx itemSize : Nat) : List Nat :=
  listSlice buf (idx * itemSize) (idx * itemSize + itemSize)

/-- Model of `utils::hash_lump_name`: fold the name bytes into a 64-bit key,
uppercasing `a..z` and stopping at the first NUL. (Key overflow cannot occur
for the 8-byte names it is applied to, so no `% 2^64` is needed.) -/
def hash_lump_name : List Nat → Nat → Nat
  | [], key => key
  | b :: rest, key =>
      if 97 ≤ b ∧ b ≤ 122 then hash_lump_name rest ((key <<< 8) ||| (b - 32))
      else if b = 0 then key
      else hash_lump_name rest ((key <<< 8) ||| b)

-- Lump record sizes (`map_items.rs`)
def THING_SIZE : Nat := 10
def LINEDEF_SIZE : Nat := 14
def SIDEDEF_SIZE : Nat := 30
def VERTEX_SIZE : Nat := 4
def SEG_SIZE : Nat := 12
def SSECTOR_SIZE : Nat := 4
def NODE_SIZE : Nat := 28
def SECTOR_SIZE : Nat := 26

/-- Model of `map_items::Vertex`: an integer 2D point (the i16 coordinates are
widened to `i32` on decode, hence `Int` here). -/
structure Vertex where
  x : Int
  y : Int
deriving DecidableEq, Repr

instance : Add Vertex := ⟨fun a b => ⟨a.x + b.x, a.y + b.y⟩⟩
instance : Sub Vertex := ⟨fun a b => ⟨a.x - b.x, a.y - b.y⟩⟩

/-- Model of `Vertex::from_lump`: decode vertex `idx` (two i16 LE values). -/
def Vertex.from_lump (lump : List Nat) (idx : Nat) : Vertex :=
  let bytes := checked_slice lump idx VERTEX_SIZE
  { x := buf_to_i16 (listSlice bytes 0 2)
    y := buf_to_i16 (listSlice bytes 2 4) }

open Real in
/-- Truncation toward zero, the rounding used by Rust's `%` on `f64`. -/
noncomputable def rustTrunc (x : ℝ) : ℤ :=
  if 0 ≤ x then ⌊x⌋ else ⌈x⌉

/-- Rust's `%` on `f64`: the truncated remainder (sign of the dividend). -/
noncomputable def rustRem (a b : ℝ) : ℝ :=
  a - b * (rustTrunc (a / b) : ℝ)

open Real in
/-- Model of `Angle::from_radians` (`angle.rs`): `rad % (2π)`, then add `2π`
when the remainder is negative. Every other constructor and operator of the
angle algebra funnels through this normalization. -/
noncomputable def from_radians (r : ℝ) : ℝ :=
  let rad := rustRem r (2 * π)
  if 0 ≤ rad then rad else rad + 2 * π

open Real in
/-- Model of `Angle::from_degrees`. -/
noncomputable def from_degrees (d : ℤ) : ℝ :=
  from_radians ((d : ℝ) * π / 180)

open Real in
/-- Model of `Angle::from_segment_angle`: the 16-bit unit, `[0, 65535]` over
the full circle. -/
noncomputable def from_segment_angle (u : Nat) : ℝ :=
  from_radians ((u : ℝ) * π / 32768)

/-- Rust `f64::atan2 y x` over the reals: the argument of the complex number
`x + y*i`, in `(-π, π]`. -/
noncomputable def atan2 (y x : ℝ) : ℝ :=
  Complex.arg ⟨x, y⟩

/-- Model of `Angle::from_vector_delta`. -/
noncomputable def from_vector_delta (dx dy : ℝ) : ℝ :=
  from_radians (atan2 dy dx)

/-- Model of `Angle::from_vector`: direction angle from `orig` to `dir`. -/
noncomputable def from_vector (orig dir : Vertex) : ℝ :=
  from_vector_delta ((dir.x - orig.x : ℤ) : ℝ) ((dir.y - orig.y : ℤ) : ℝ)

/-- Model of `Angle + Angle` (also `Angle + f64`): add then renormalize. -/
noncomputable def angle_add (a b : ℝ) : ℝ := from_radians (a + b)

/-- Model of `Angle - Angle` (also `Angle - f64`): subtract then renormalize. -/
noncomputable def angle_sub (a b : ℝ) : ℝ := from_radians (a - b)

open Real in
/-- Model of `-Angle`: add `π` then renormalize. -/
noncomputable def angle_neg (a : ℝ) : ℝ := from_radians (a + π)

/-- Model of `Angle * f64`. -/
noncomputable def angle_mul (a k : ℝ) : ℝ := from_radians (a * k)

/-- Model of `Angle / f64`. -/
noncomputable def angle_div (a k : ℝ) : ℝ := from_radians (a / k)

/-- Model of `map_items::LineDef`: a wall, with its two endpoints resolved and
the raw u16 fields kept as `Nat`. -/
structure LineDef where
  v1 : Vertex
  v2 : Vertex
  flags : Nat
  special_type : Nat
  sector_tag : Nat
  right_side_idx : Nat
  left_side_idx : Nat
deriving DecidableEq, Repr

/-- Model of `LineDef::from_lump`. -/
def LineDef.from_lump (lump : List Nat) (idx : Nat) (vertexLump : List Nat) : LineDef :=
  let bytes := checked_slice lump idx LINEDEF_SIZE
  { v1 := Vertex.from_lump vertexLump (buf_to_u16 (listSlice bytes 0 2))
    v2 := Vertex.from_lump vertexLump (buf_to_u16 (listSlice bytes 2 4))
    flags := buf_to_u16 (listSlice bytes 4 6)
    special_type := buf_to_u16 (listSlice bytes 6 8)
    sector_tag := buf_to_u16 (listSlice bytes 8 10)
    right_side_idx := buf_to_u16 (listSlice bytes 10 12)
    left_side_idx := buf_to_u16 (listSlice bytes 12 14) }

/-- Model of `map_items::SideDef`. -/
structure SideDef where
  x_offset : Int
  y_offset : Int
  upper_texture_key : Nat
  lower_texture_key : Nat
  middle_texture_key : Nat
  sector_idx : Nat
deriving DecidableEq, Repr

/-- Model of `SideDef::from_lump`. -/
def SideDef.from_lump (lump : List Nat) (idx : Nat) : SideDef :=
  let bytes := checked_slice lump idx SIDEDEF_SIZE
  { x_offset := buf_to_i16 (listSlice bytes 0 2)
    y_offset := buf_to_i16 (listSlice bytes 2 4)
    upper_texture_key := hash_lump_name (listSlice bytes 4 12) 0
    lower_texture_key := hash_lump_name (listSlice bytes 12 20) 0
    middle_texture_key := hash_lump_name (listSlice bytes 20 28) 0
    sector_idx := buf_to_u16 (listSlice bytes 28 30) }

/-- Model of `map_items::Sector`. -/
structure Sector where
  floor_height : Int
  ceiling_height : Int
  floor_flat_key : Nat
  ceiling_flat_key : Nat
  light_level : Nat
  special_type : Nat
  tag_nr : Nat
deriving DecidableEq, Repr

/-- Model of `Sector::from_lump`. -/
def Sector.from_lump (lump : List Nat) (idx : Nat) : Sector :=
  let bytes := checked_slice lump idx SECTOR_SIZE
  { floor_height := buf_to_i16 (listSlice bytes 0 2)
    ceiling_height := buf_to_i16 (listSlice bytes 2 4)
    floor_flat_key := hash_lump_name (listSlice bytes 4 12) 0
    ceiling_flat_key := hash_lump_name (listSlice bytes 12 20) 0
    light_level := buf_to_u16 (listSlice bytes 20 22)
    special_type := buf_to_u16 (listSlice bytes 22 24)
    tag_nr := buf_to_u16 (listSlice bytes 24 26) }

/-- Model of `map_items::BspNode`: a splitting line (origin plus direction)
and the two child indices (raw u16, top bit = sub-sector leaf flag). -/
structure BspNode where
  vect_orig : Vertex
  vect_dir : Vertex
  right_child : Nat
  left_child : Nat
deriving DecidableEq, Repr

/-- Model of `BspNode::from_lump`: the first 24 bytes decode as six i16
values (of which the first four are used), then the two child u16 indices. -/
def BspNode.from_lump (lump : List Nat) (idx : Nat) : BspNode :=
  let bytes := checked_slice lump idx NODE_SIZE
  let vect := buf_to_i16_vect (listSlice bytes 0 24)
  { vect_orig := { x := vect.getD 0 0, y := vect.getD 1 0 }
    vect_dir := { x := vect.getD 2 0, y := vect.getD 3 0 }
    right_child := buf_to_u16 (listSlice bytes 24 26)
    left_child := buf_to_u16 (listSlice bytes 26 28) }

/-- Model of `BspNode::child_indices_based_on_point_pos`: the sign of the 2D
cross product of `(point - vect_orig)` with `vect_dir` picks which child is
visited first (non-positive: left first, else right first). -/
def BspNode.child_indices_based_on_point_pos (n : BspNode) (point : Vertex) : Nat × Nat :=
  let pvect := point - n.vect_orig
  let cross_product_dir := pvect.x * n.vect_dir.y - pvect.y * n.vect_dir.x
  if cross_product_dir ≤ 0 then (n.left_child, n.right_child)
  else (n.right_child, n.left_child)

/-- Model of `map_items::Seg`: a wall sub-segment (the precomputed direction
angle lives in `ℝ`). -/
structure Seg where
  start : Vertex
  seg_end : Vertex
  angle : ℝ
  linedef_idx : Nat
  direction_same : Bool
  offset : Int

/-- Model of `Seg::from_lump`. -/
noncomputable def Seg.from_lump (lump : List Nat) (idx : Nat) (vertexLump : List Nat) : Seg :=
  let bytes := checked_slice lump idx SEG_SIZE
  { start := Vertex.from_lump vertexLump (buf_to_u16 (listSlice bytes 0 2))
    seg_end := Vertex.from_lump vertexLump (buf_to_u16 (listSlice bytes 2 4))
    angle := from_segment_angle (buf_to_u16 (listSlice bytes 4 6))
    linedef_idx := buf_to_u16 (listSlice bytes 6 8)
    direction_same := buf_to_u16 (listSlice bytes 8 10) == 0
    offset := buf_to_i16 (listSlice bytes 10 12) }

-- Lump slot indices inside `MapData` (`map.rs`)
def IDX_THINGS : Fin 10 := 0
def IDX_LINEDEFS : Fin 10 := 1
def IDX_SIDEDEFS : Fin 10 := 2
def IDX_VERTEXES : Fin 10 := 3
def IDX_SEGS : Fin 10 := 4
def IDX_SSECTORS : Fin 10 := 5
def IDX_NODES : Fin 10 := 6
def IDX_SECTORS : Fin 10 := 7
def IDX_REJECT : Fin 10 := 8
def IDX_BLOCKMAP : Fin 10 := 9

/-- Model of `map::MapData`: the per-level store — a name (as raw name
bytes), the ten lump byte buffers, and the derived bounding box. -/
structure MapData where
  name : List Nat
  lumps : Fin 10 → List Nat
  bound_min : Vertex
  bound_max : Vertex

/-- Model of `MapData::new`: all lumps empty, default bounds. -/
def MapData.new (name : List Nat) : MapData :=
  { name := name, lumps := fun _ => [], bound_min := ⟨0, 0⟩, bound_max := ⟨0, 0⟩ }

/-- Model of `MapData::is_complete`: every one of the ten lumps is non-empty. -/
def MapData.is_complete (md : MapData) : Bool :=
  (List.finRange 10).all (fun i => 0 < (md.lumps i).length)

/-- Model of `MapData::vertex_count`. -/
def MapData.vertex_count (md : MapData) : Nat :=
  (md.lumps IDX_VERTEXES).length / VERTEX_SIZE

/-- Model of `MapData::vertex`. -/
def MapData.vertex (md : MapData) (idx : Nat) : Vertex :=
  Vertex.from_lump (md.lumps IDX_VERTEXES) idx

/-- Model of `MapData::linedef_count`. -/
def MapData.linedef_count (md : MapData) : Nat :=
  (md.lumps IDX_LINEDEFS).length / LINEDEF_SIZE

/-- Model of `MapData::linedef`. -/
def MapData.linedef (md : MapData) (idx : Nat) : LineDef :=
  LineDef.from_lump (md.lumps IDX_LINEDEFS) idx (md.lumps IDX_VERTEXES)

/-- Model of `MapData::sidedef`. -/
def MapData.sidedef (md : MapData) (idx : Nat) : SideDef :=
  SideDef.from_lump (md.lumps IDX_SIDEDEFS) idx

/-- Model of `MapData::sector`. -/
def MapData.sector (md : MapData) (idx : Nat) : Sector :=
  Sector.from_lump (md.lumps IDX_SECTORS) idx

/-- Number of BSP nodes held by the NODES lump (inlined in the source as
`lumps[IDX_NODES].len() / NODE_SIZE`). -/
def MapData.node_count (md : MapData) : Nat :=
  (md.lumps IDX_NODES).length / NODE_SIZE

/-- Model of `MapData::root_bsp_node_idx`: `(nodeCount - 1) as u16` (the
`usize → u16` cast is the `% 2^16`; the subtraction is the saturating `Nat`
one, the source would underflow-panic on an empty NODES lump). -/
def MapData.root_bsp_node_idx (md : MapData) : Nat :=
  (md.node_count - 1) % 65536

/-- Model of `MapData::bsp_node`. -/
def MapData.bsp_node (md : MapData) (idx : Nat) : BspNode :=
  BspNode.from_lump (md.lumps IDX_NODES) idx

/-- Model of `MapData::seg_count`. -/
def MapData.seg_count (md : MapData) : Nat :=
  (md.lumps IDX_SEGS).length / SEG_SIZE

/-- Model of `MapData::sub_sector`: read the seg count and first seg index of
sub-sector `idx` from SSECTORS, then decode that contiguous run from SEGS. -/
noncomputable def MapData.sub_sector (md : MapData) (idx : Nat) : List Seg :=
  let bytes := checked_slice (md.lumps IDX_SSECTORS) idx SSECTOR_SIZE
  let seg_count := buf_to_u16 (listSlice bytes 0 2)
  let first_seg_idx := buf_to_u16 (listSlice bytes 2 4)
  (List.range seg_count).map
    (fun i => Seg.from_lump (md.lumps IDX_SEGS) (first_seg_idx + i) (md.lumps IDX_VERTEXES))

/-- Model of `MapData::sector` count used by `check_line_of_sight`
(`lumps[IDX_SECTORS].len() / SECTOR_SIZE`). -/
def MapData.sector_count (md : MapData) : Nat :=
  (md.lumps IDX_SECTORS).length / SECTOR_SIZE

/-- Model of `MapData::check_line_of_sight`: pure bit lookup in the REJECT
lump; bit index `monster * sectorCount + player`; clear bit = visible. The
source indexes the lump byte directly (panic when out of range); modelled
with `getD`, the line-of-sight theorem keeps the index in range. -/
def MapData.check_line_of_sight (md : MapData) (player_sect_idx monster_sect_idx : Nat) : Bool :=
  let sector_count := md.sector_count
  let bit_idx := monster_sect_idx * sector_count + player_sect_idx
  let byte_idx := bit_idx >>> 3
  let bit_mask := 1 <<< (bit_idx &&& 0x07)
  ((md.lumps IDX_REJECT).getD byte_idx 0) &&& bit_mask == 0

/-- One iteration of the `compute_map_bounds` loop: merge vertex `i` into the
running bottom-left / top-right pair. -/
def boundsStep (md : MapData) (bt : Vertex × Vertex) (i : Nat) : Vertex × Vertex :=
  let v := md.vertex i
  (⟨min bt.1.x v.x, min bt.1.y v.y⟩, ⟨max bt.2.x v.x, max bt.2.y v.y⟩)

/-- Model of `MapData::compute_map_bounds`: seed both corners with vertex 0,
then fold the componentwise min/max over vertices `1 .. count-1`. -/
def MapData.compute_map_bounds (md : MapData) : MapData :=
  let bl0 := md.vertex 0
  let bt := (List.range' 1 (md.vertex_count - 1)).foldl (boundsStep md) (bl0, bl0)
  { md with bound_min := bt.1, bound_max := bt.2 }

-- Recognized map lump names, as byte lists (`MapData::add_lump`)
def NAME_THINGS : List Nat := [84, 72, 73, 78, 71, 83]
def NAME_LINEDEFS : List Nat := [76, 73, 78, 69, 68, 69, 70, 83]
def NAME_SIDEDEFS : List Nat := [83, 73, 68, 69, 68, 69, 70, 83]
def NAME_VERTEXES : List Nat := [86, 69, 82, 84, 69, 88, 69, 83]
def NAME_SEGS : List Nat := [83, 69, 71, 83]
def NAME_SSECTORS : List Nat := [83, 83, 69, 67, 84, 79, 82, 83]
def NAME_NODES : List Nat := [78, 79, 68, 69, 83]
def NAME_SECTORS : List Nat := [83, 69, 67, 84, 79, 82, 83]
def NAME_REJECT : List Nat := [82, 69, 74, 69, 67, 84]
def NAME_BLOCKMAP : List Nat := [66, 76, 79, 67, 75, 77, 65, 80]

/-- Lump-name routing of `MapData::add_lump`: the slot index for a recognized
map lump name, `none` otherwise. -/
def mapLumpIdx (name : List Nat) : Option (Fin 10) :=
  if name = NAME_VERTEXES then some IDX_VERTEXES
  else if name = NAME_LINEDEFS then some IDX_LINEDEFS
  else if name = NAME_THINGS then some IDX_THINGS
  else if name = NAME_SIDEDEFS then some IDX_SIDEDEFS
  else if name = NAME_SEGS then some IDX_SEGS
  else if name = NAME_SSECTORS then some IDX_SSECTORS
  else if name = NAME_NODES then some IDX_NODES
  else if name = NAME_SECTORS then some IDX_SECTORS
  else if name = NAME_REJECT then some IDX_REJECT
  else if name = NAME_BLOCKMAP then some IDX_BLOCKMAP
  else none

/-- Model of `MapData::add_lump`: store a recognized lump (recomputing the
bounding box exactly when the VERTEXES lump is assigned) and return `true`;
an unrecognized name leaves the map unchanged and returns `false`. -/
def MapData.add_lump (md : MapData) (name : List Nat) (bytes : List Nat) : MapData × Bool :=
  match mapLumpIdx name with
  | some idx =>
      let md1 := { md with lumps := Function.update md.lumps idx bytes }
      if idx = IDX_VERTEXES then (md1.compute_map_bounds, true) else (md1, true)
  | none => (md, false)

-- `level.rs` constants
def LINE_TWO_SIDED : Nat := 0x0004
def SSECTOR_FLAG : Nat := 0x8000

/-- Model of `level.rs`'s `LineDefDetails`. -/
structure LineDefDetails where
  right_sidedef : Option SideDef
  right_sector : Option Sector
  left_sidedef : Option SideDef
  left_sector : Option Sector
deriving DecidableEq, Repr

/-- Model of `ActiveLevel::get_line_details`: resolve the two optional
side/sector pairs (the `0xFFFF` sentinel meaning "no side"), then run the
source's `assert!` sanity checks; `none` models an assertion failure (panic).
The asserts demand a present LEFT side always, and — for a wall without the
two-sided flag — an absent RIGHT side. -/
def get_line_details (md : MapData) (linedef : LineDef) : Option LineDefDetails :=
  let details : LineDefDetails :=
    { left_sidedef :=
        if linedef.left_side_idx ≠ 0xFFFF then some (md.sidedef linedef.left_side_idx) else none
      left_sector :=
        if linedef.left_side_idx ≠ 0xFFFF then
          some (md.sector (md.sidedef linedef.left_side_idx).sector_idx)
        else none
      right_sidedef :=
        if linedef.right_side_idx ≠ 0xFFFF then some (md.sidedef linedef.right_side_idx) else none
      right_sector :=
        if linedef.right_side_idx ≠ 0xFFFF then
          some (md.sector (md.sidedef linedef.right_side_idx).sector_idx)
        else none }
  if details.left_sidedef.isSome ∧ details.left_sector.isSome ∧
      (if linedef.flags &&& LINE_TWO_SIDED = 0 then
        details.right_sidedef.isNone ∧ details.right_sector.isNone
      else
        details.right_sidedef.isSome ∧ details.right_sector.isSome) then
    some details
  else none

open Classical in
/-- Model of `ActiveLevel::is_seg_in_player_fov`: direction angles from the
player position to the seg's two endpoints; reject on equal angles, reject
when the normalized span `a1 - a2` reaches `π`; otherwise shift both angles
by `- playerAngle + halfFov` (each operation renormalizing) and accept when
either lands below `2*halfFov` (normalized) or `a1` shifted lands below
`2*halfFov + span` (normalized). -/
noncomputable def is_seg_in_player_fov (ppos : Vertex) (pangle halfFov : ℝ) (seg : Seg) : Bool :=
  let a1 := from_vector ppos seg.start
  let a2 := from_vector ppos seg.seg_end
  if a1 = a2 then false
  else
    let span_v1_to_v2 := angle_sub a1 a2
    if Real.pi ≤ span_v1_to_v2 then false
    else
      let full_fov := angle_mul halfFov 2
      let b1 := angle_add (angle_sub a1 pangle) halfFov
      let b2 := angle_add (angle_sub a2 pangle) halfFov
      decide (b1 < full_fov ∨ b2 < full_fov ∨ b1 < angle_add full_fov span_v1_to_v2)

/-- Model of `ActiveLevel::render_sub_sector`: clear the leaf flag bit, fetch
the sub-sector's segs and keep the ones passing the FOV test, in order. -/
noncomputable def render_sub_sector (md : MapData) (ppos : Vertex) (pangle halfFov : ℝ)
    (sect_idx : Nat) : List Seg :=
  let idx := sect_idx &&& 0x7FFF
  (md.sub_sector idx).filter (is_seg_in_player_fov ppos pangle halfFov)

/-- Model of `ActiveLevel::render_node`: internal nodes (top bit clear)
recurse into the near child then the far child, as ordered by
`child_indices_based_on_point_pos`; leaves collect their FOV survivors. The
source recursion has no structural termination measure (child indices are
arbitrary u16 values from the lump), so the model carries an explicit `fuel`
parameter; exhausted fuel contributes nothing. -/
noncomputable def render_node (md : MapData) (ppos : Vertex) (pangle halfFov : ℝ) :
    Nat → Nat → List Seg
  | 0, _ => []
  | fuel + 1, node_idx =>
      if node_idx &&& SSECTOR_FLAG = 0 then
        let node := md.bsp_node node_idx
        let kids := node.child_indices_based_on_point_pos ppos
        render_node md ppos pangle halfFov fuel kids.1 ++
          render_node md ppos pangle halfFov fuel kids.2
      else
        render_sub_sector md ppos pangle halfFov node_idx

/-- Model of `ActiveLevel::player_visible_segments`: run the walk from the
root node index (with the same fuel convention as `render_node`). -/
noncomputable def player_visible_segments (md : MapData) (ppos : Vertex) (pangle halfFov : ℝ)
    (fuel : Nat) : List Seg :=
  render_node md ppos pangle halfFov fuel md.root_bsp_node_idx

/-- Leaf enumeration of the same walk, for stating the traversal contract:
the sub-sector indices (flag bit cleared) of the leaves, in the near-to-far
order chosen by the point-side classification, with the same fuel convention
as `render_node`. -/
def visit_leaves (md : MapData) (ppos : Vertex) : Nat → Nat → List Nat
  | 0, _ => []
  | fuel + 1, node_idx =>
      if node_idx &&& SSECTOR_FLAG = 0 then
        let node := md.bsp_node node_idx
        let kids := node.child_indices_based_on_point_pos ppos
        visit_leaves md ppos fuel kids.1 ++ visit_leaves md ppos fuel kids.2
      else
        [node_idx &&& 0x7FFF]

/-- Load-time structural errors of `WadData::load` (`wad.rs`); each case
stands for one of the source's descriptive `Err(format!(...))` strings. -/
inductive WadErr where
  | tooSmall
  | invalidKind
  | invalidLumpName (idx : Nat)
  | lumpTooBig (name : List Nat)
  | incompleteMap (name : List Nat)
  | noPalette
  | noMaps
  | noFonts
deriving DecidableEq, Repr

-- Non-map lump names routed by `parse_wad_lumps`
def NAME_PLAYPAL : List Nat := [80, 76, 65, 89, 80, 65, 76]
def NAME_COLORMAP : List Nat := [67, 79, 76, 79, 82, 77, 65, 80]
def NAME_F_START : List Nat := [70, 95, 83, 84, 65, 82, 84]
def NAME_F_END : List Nat := [70, 95, 69, 78, 68]

/-- Model of `wad.rs`'s `is_ascii_digit`. -/
def is_ascii_digit (b : Nat) : Bool :=
  48 ≤ b ∧ b ≤ 57

/-- Model of `wad.rs`'s `is_map_name`: `E<digit>M<digit>` or
`MAP<digit><digit>` (on the name bytes). -/
def isMapName (name : List Nat) : Bool :=
  if name.length = 4 then
    name.getD 0 0 = 69 ∧ is_ascii_digit (name.getD 1 0) ∧
      name.getD 2 0 = 77 ∧ is_ascii_digit (name.getD 3 0)
  else if name.length = 5 then
    name.getD 0 0 = 77 ∧ name.getD 1 0 = 65 ∧ name.getD 2 0 = 80 ∧
      is_ascii_digit (name.getD 3 0) ∧ is_ascii_digit (name.getD 4 0)
  else false

/-- Model of `wad.rs`'s `extract_lump_name`: collect name bytes up to the
first NUL; a byte `≤ 32` or `≥ 127` before that fails with the
invalid-lump-name error carrying the directory index. -/
def extractLumpName : List Nat → Nat → Except WadErr (List Nat)
  | [], _ => .ok []
  | b :: rest, idx =>
      if b = 0 then .ok []
      else if b ≤ 32 ∨ 127 ≤ b then .error (.invalidLumpName idx)
      else do
        let tail ← extractLumpName rest idx
        .ok (b :: tail)

/-- Parser state threaded through `parse_wad_lumps`: collected maps, the
active map accumulator, the flats-region flag, and the load-validation-
relevant parts of the palette / font resources (`pal_cnt`, `cmap_cnt` of
`Palette`; the font modelled only by an abstract completeness flag, never
set here — the claims below never reach the font check). -/
structure ParseState where
  maps : List MapData
  curMap : Option MapData
  isFlats : Bool
  palCnt : Nat
  cmapCnt : Nat
  fontComplete : Bool

/-- Parser state at the start of `parse_wad_lumps` (fresh `WadData`:
`Palette::new` has both counts 0). -/
def ParseState.init : ParseState :=
  { maps := [], curMap := none, isFlats := false, palCnt := 0, cmapCnt := 0,
    fontComplete := false }

/-- One directory entry of `parse_wad_lumps`: read start/size/name at
`dir_offset + 16 * lump_idx`, validate the name, then reject when
`lump_start + lump_size >= wad_len` (the source's bound check) with the
lump-too-big error, else slice out the lump bytes. -/
def parseDirEntry (wad : List Nat) (dirOfs lumpIdx : Nat) :
    Except WadErr (List Nat × List Nat) := do
  let offs := dirOfs + 16 * lumpIdx
  let lumpStart := buf_to_u32 (listSlice wad offs (offs + 4))
  let lumpSize := buf_to_u32 (listSlice wad (offs + 4) (offs + 8))
  let lumpName ← extractLumpName (listSlice wad (offs + 8) (offs + 16)) lumpIdx
  let lumpEnd := lumpStart + lumpSize
  if wad.length ≤ lumpEnd then .error (.lumpTooBig lumpName)
  else .ok (lumpName, listSlice wad lumpStart lumpEnd)

/-- Routing of a lump outside (or ending) a map accumulator: a level-marker
name opens a fresh accumulator; `PLAYPAL` / `COLORMAP` update the palette
counts (`len / 768`, `len / 256`); `F_START` / `F_END` toggle the flats
region. The remaining arms of the source's `match` only feed the graphics
and font resources (external collaborators, spec section 1) and no
load-relevant state, so they leave the modelled state unchanged; in
particular the `PNAMES` / `TEXTUREx` structural validation of
`graphics.rs` is outside this model and no claim below exercises it. -/
def parseRest (st : ParseState) (name bytes : List Nat) : ParseState :=
  if isMapName name then { st with curMap := some (MapData.new name) }
  else if name = NAME_PLAYPAL then { st with palCnt := bytes.length / 768 }
  else if name = NAME_COLORMAP then { st with cmapCnt := bytes.length / 256 }
  else if name = NAME_F_START then { st with isFlats := true }
  else if name = NAME_F_END then { st with isFlats := false }
  else st

/-- One loop iteration of `parse_wad_lumps`, after the directory entry is
read: an active map accumulator is offered the lump first (`add_lump`);
acceptance continues the map; refusal ends it — an incomplete map aborts the
whole load, a complete one is pushed and the same lump then goes through the
non-map routing. -/
def parseStep (st : ParseState) (name bytes : List Nat) : Except WadErr ParseState :=
  match st.curMap with
  | some m =>
      let r := m.add_lump name bytes
      if r.2 then .ok { st with curMap := some r.1 }
      else if m.is_complete then
        .ok (parseRest { st with curMap := none, maps := st.maps ++ [m] } name bytes)
      else .error (.incompleteMap m.name)
  | none => .ok (parseRest st name bytes)

/-- The `for lump_idx in 0..lump_count` loop of `parse_wad_lumps`, over the
remaining directory indices; any error aborts the whole parse. -/
def parseLoop (wad : List Nat) (dirOfs : Nat) : List Nat → ParseState → Except WadErr ParseState
  | [], st => .ok st
  | i :: rest, st => do
      let entry ← parseDirEntry wad dirOfs i
      let st1 ← parseStep st entry.1 entry.2
      parseLoop wad dirOfs rest st1

/-- Model of `WadData::parse_wad_lumps`: lump count and directory offset from
the fixed header fields, then the directory loop from a fresh state. -/
def parse_wad_lumps (wad : List Nat) : Except WadErr ParseState :=
  parseLoop wad (buf_to_u32 (listSlice wad 8 12))
    (List.range (buf_to_u32 (listSlice wad 4 8))) ParseState.init

/-- Model of `WadData::validate_collected_data`: palette initialized
(`pal_cnt > 0 && cmap_cnt > 0`), at least one map, font complete — checked in
that order. -/
def validate_collected_data (st : ParseState) : Except WadErr ParseState :=
  if ¬ (0 < st.palCnt ∧ 0 < st.cmapCnt) then .error .noPalette
  else if st.maps.length = 0 then .error .noMaps
  else if ¬ st.fontComplete then .error .noFonts
  else .ok st

def MAGIC_IWAD : List Nat := [73, 87, 65, 68]
def MAGIC_PWAD : List Nat := [80, 87, 65, 68]

/-- Model of `WadData::load` on the in-memory file bytes: too-small check,
4-byte magic against the expected kind, then parse and validate. (The fully
populated `WadData` is modelled by the final `ParseState`; the source's
UTF-8 decode failure of the magic and a magic mismatch are merged into the
one invalid-kind error, neither being exercised by any claim.) -/
def load (wad : List Nat) (is_iwad : Bool) : Except WadErr ParseState :=
  if wad.length ≤ 16 then .error .tooSmall
  else if listSlice wad 0 4 ≠ (if is_iwad then MAGIC_IWAD else MAGIC_PWAD) then
    .error .invalidKind
  else do
    let st ← parse_wad_lumps wad
    validate_collected_data st

/-! Concrete inputs used by the witnesses and the failing-input evaluations. -/

/-- A map store whose NODES lump holds exactly one (all-zero) node record. -/
def mdOneNode : MapData :=
  { name := [69, 49, 77, 49]
    lumps := fun i => if i = IDX_NODES then List.replicate 28 0 else []
    bound_min := ⟨0, 0⟩
    bound_max := ⟨0, 0⟩ }

/-- A map store with one all-zero SideDef and one all-zero Sector record. -/
def mdOneSide : MapData :=
  { name := [69, 49, 77, 49]
    lumps := fun i =>
      if i = IDX_SIDEDEFS then List.replicate 30 0
      else if i = IDX_SECTORS then List.replicate 26 0
      else []
    bound_min := ⟨0, 0⟩
    bound_max := ⟨0, 0⟩ }

/-- A one-sided wall laid out as the format requires: right side present
(index 0), left side absent (the `0xFFFF` sentinel), two-sided flag clear. -/
def ldOneSided : LineDef :=
  { v1 := ⟨0, 0⟩, v2 := ⟨64, 0⟩, flags := 0, special_type := 0, sector_tag := 0,
    right_side_idx := 0, left_side_idx := 0xFFFF }

/-- A degenerate seg whose start and end coincide. -/
noncomputable def segDegenerate : Seg :=
  { start := ⟨1, 0⟩, seg_end := ⟨1, 0⟩, angle := 0, linedef_idx := 0,
    direction_same := true, offset := 0 }

/-- A 28-byte WAD: `IWAD` magic, one directory entry at offset 12 whose lump
(`E1M1`, start 0, size 28) ends exactly at the file length. -/
def wadEdgeLump : List Nat :=
  [73, 87, 65, 68, 1, 0, 0, 0, 12, 0, 0, 0,
   0, 0, 0, 0, 28, 0, 0, 0, 69, 49, 77, 49, 0, 0, 0, 0]

/-- A parser state in the middle of accumulating a map whose ten lumps are
all already non-empty, with the palette resource initialized. -/
def stMidMap : ParseState :=
  { maps := [], isFlats := false, palCnt := 1, cmapCnt := 1, fontComplete := false
    curMap := some
      { name := [69, 49, 77, 49], lumps := fun _ => [0],
        bound_min := ⟨0, 0⟩, bound_max := ⟨0, 0⟩ } }

/-- A parser state accumulating a still-empty map. -/
def stFreshMap : ParseState :=
  { maps := [], isFlats := false, palCnt := 0, cmapCnt := 0, fontComplete := false
    curMap := some (MapData.new [69, 49, 77, 49]) }

/-- A 32-byte directory-only WAD fragment: one entry (`THINGS`, start 0,
size 1) at offset 0, followed by padding so the lump slice stays in bounds. -/
def wadOneThings : List Nat :=
  [0, 0, 0, 0, 1, 0, 0, 0, 84, 72, 73, 78, 71, 83, 0, 0,
   0, 0, 0, 0, 0, 0, 0, 0, 0, 0, 0, 0, 0, 0, 0, 0]

/-- The VERTEXES lump bytes of the three vertices (0,0), (10,5), (-3,8). -/
def vertexLumpExample : List Nat :=
  [0, 0, 0, 0, 10, 0, 5, 0, 253, 255, 8, 0]

/-- A 32-byte directory-only WAD fragment: one entry (name `X`, start 0,
size 1) at offset 0 — a name no map accumulator recognizes. -/
def wadOneX : List Nat :=
  [0, 0, 0, 0, 1, 0, 0, 0, 88, 0, 0, 0, 0, 0, 0, 0,
   0, 0, 0, 0, 0, 0, 0, 0, 0, 0, 0, 0, 0, 0, 0, 0]

/-- A map store holding the example VERTEXES lump (and nothing else). -/
def mdVertexExample : MapData :=
  ((MapData.new [69, 49, 77, 49]).add_lump NAME_VERTEXES vertexLumpExample).1

/-- A map store with one (all-zero) sector and the single REJECT byte 1:
bit 0 — the (player 0, monster 0) pair — is set. -/
def mdRejectExample : MapData :=
  { name := [69, 49, 77, 49]
    lumps := fun i =>
      if i = IDX_SECTORS then List.replicate 26 0
      else if i = IDX_REJECT then [1]
      else []
    bound_min := ⟨0, 0⟩
    bound_max := ⟨0, 0⟩ }

/-! Angle-algebra lemmas. -/

theorem from_radians_def (r : ℝ) :
    from_radians r =
      if 0 ≤ rustRem r (2 * Real.pi) then rustRem r (2 * Real.pi)
      else rustRem r (2 * Real.pi) + 2 * Real.pi := rfl

theorem rustRem_bounds {b : ℝ} (hb : 0 < b) (a : ℝ) :
    -b < rustRem a b ∧ rustRem a b < b := by
  have hbne : b ≠ 0 := ne_of_gt hb
  have hr : a / b * b = a := div_mul_cancel₀ a hbne
  unfold rustRem rustTrunc
  by_cases h : 0 ≤ a / b
  · rw [if_pos h]
    have h1 : ((⌊a / b⌋ : ℤ) : ℝ) ≤ a / b := Int.floor_le _
    have h2 : a / b < (⌊a / b⌋ : ℤ) + 1 := Int.lt_floor_add_one _
    constructor <;> nlinarith
  · rw [if_neg h]
    have h1 : a / b ≤ ((⌈a / b⌉ : ℤ) : ℝ) := Int.le_ceil _
    have h2 : ((⌈a / b⌉ : ℤ) : ℝ) < a / b + 1 := Int.ceil_lt_add_one _
    constructor <;> nlinarith

/-- Normalization lands in `[0, 2π)`. -/
theorem from_radians_mem (r : ℝ) : from_radians r ∈ Set.Ico 0 (2 * Real.pi) := by
  have hb : (0 : ℝ) < 2 * Real.pi := by positivity
  have hbnd := rustRem_bounds hb r
  rw [from_radians_def]
  by_cases h : 0 ≤ rustRem r (2 * Real.pi)
  · rw [if_pos h]
    exact ⟨h, hbnd.2⟩
  · rw [if_neg h]
    push_neg at h
    constructor <;> nlinarith [hbnd.1, hbnd.2]

/-- Normalization shifts its argument by an integer number of full turns. -/
theorem from_radians_add_int_mul (r : ℝ) :
    ∃ k : ℤ, from_radians r = r + 2 * Real.pi * k := by
  rw [from_radians_def]
  unfold rustRem
  by_cases h : 0 ≤ r - 2 * Real.pi * (rustTrunc (r / (2 * Real.pi)) : ℝ)
  · exact ⟨-rustTrunc (r / (2 * Real.pi)), by rw [if_pos h]; push_cast; ring⟩
  · exact ⟨1 - rustTrunc (r / (2 * Real.pi)), by rw [if_neg h]; push_cast; ring⟩

/-- Two values of `[0, 2π)` an integer number of turns apart are equal. -/
theorem norm_unique {x y : ℝ} (hx : x ∈ Set.Ico 0 (2 * Real.pi))
    (hy : y ∈ Set.Ico 0 (2 * Real.pi)) (k : ℤ) (h : x - y = 2 * Real.pi * k) : x = y := by
  have hb : (0 : ℝ) < 2 * Real.pi := by positivity
  have habs : |x - y| < 2 * Real.pi := by
    rw [abs_lt]
    exact ⟨by nlinarith [hx.1, hx.2, hy.1, hy.2], by nlinarith [hx.1, hx.2, hy.1, hy.2]⟩
  rw [h, abs_mul, abs_of_pos hb] at habs
  have hk : |(k : ℝ)| < 1 := by
    by_contra hc
    push_neg at hc
    nlinarith
  have hk2 : k = 0 := by
    have h1 : ((|k| : ℤ) : ℝ) < 1 := by rw [Int.cast_abs]; exact hk
    have h2 : |k| < 1 := by exact_mod_cast h1
    have h3 := abs_lt.mp h2
    omega
  rw [hk2] at h
  push_cast at h
  linarith

/-- Normalization only depends on the argument modulo full turns. -/
theorem from_radians_congr {a b : ℝ} (k : ℤ) (h : a - b = 2 * Real.pi * k) :
    from_radians a = from_radians b := by
  obtain ⟨m, hm⟩ := from_radians_add_int_mul a
  obtain ⟨n, hn⟩ := from_radians_add_int_mul b
  refine norm_unique (from_radians_mem a) (from_radians_mem b) (k + m - n) ?_
  rw [hm, hn]
  push_cast
  nlinarith [h]

/-- Renormalizing an already-normalized summand is redundant. -/
theorem from_radians_norm_add (a c : ℝ) :
    from_radians (from_radians a + c) = from_radians (a + c) := by
  obtain ⟨m, hm⟩ := from_radians_add_int_mul a
  exact from_radians_congr m (by rw [hm]; ring)

theorem Vertex.sub_x (a b : Vertex) : (a - b).x = a.x - b.x := rfl

theorem Vertex.sub_y (a b : Vertex) : (a - b).y = a.y - b.y := rfl

/-- C7: every constructor of the angle algebra (`from_radians`,
`from_degrees`, `from_segment_angle`, `from_vector`) and every arithmetic
operator (add, subtract, negate, multiply, divide) returns a value normalized
into `[0, 2π)` by floored modulo — never negative; in particular, for all
radians `r`, `from_radians r` lies in `[0, 2π)`. (`f64` modelled as `ℝ`.) -/
theorem c7_angle_normalization :
    ∀ (r : ℝ) (d : ℤ) (u : Nat) (o t : Vertex) (a b k : ℝ),
      from_radians r ∈ Set.Ico 0 (2 * Real.pi) ∧
      from_degrees d ∈ Set.Ico 0 (2 * Real.pi) ∧
      from_segment_angle u ∈ Set.Ico 0 (2 * Real.pi) ∧
      from_vector o t ∈ Set.Ico 0 (2 * Real.pi) ∧
      angle_add a b ∈ Set.Ico 0 (2 * Real.pi) ∧
      angle_sub a b ∈ Set.Ico 0 (2 * Real.pi) ∧
      angle_neg a ∈ Set.Ico 0 (2 * Real.pi) ∧
      angle_mul a k ∈ Set.Ico 0 (2 * Real.pi) ∧
      angle_div a k ∈ Set.Ico 0 (2 * Real.pi) := by
  intro r d u o t a b k
  exact ⟨from_radians_mem _, from_radians_mem _, from_radians_mem _, from_radians_mem _,
    from_radians_mem _, from_radians_mem _, from_radians_mem _, from_radians_mem _,
    from_radians_mem _⟩

/-- C3: the BSP point-side classification is the sign of the 2D cross product
of `(viewpoint - splitOrigin)` with the split direction: non-positive picks
the left child first, positive the right child first; for the eastward line
through the origin, `(5, 1)` classifies left and `(5, -1)` right. -/
theorem c3_child_classification :
    (∀ (n : BspNode) (p : Vertex),
      n.child_indices_based_on_point_pos p =
        if (p.x - n.vect_orig.x) * n.vect_dir.y - (p.y - n.vect_orig.y) * n.vect_dir.x ≤ 0
        then (n.left_child, n.right_child)
        else (n.right_child, n.left_child)) ∧
    (∀ lc rc : Nat,
      (BspNode.mk ⟨0, 0⟩ ⟨1, 0⟩ rc lc).child_indices_based_on_point_pos ⟨5, 1⟩ = (lc, rc) ∧
      (BspNode.mk ⟨0, 0⟩ ⟨1, 0⟩ rc lc).child_indices_based_on_point_pos ⟨5, -1⟩ = (rc, lc)) := by
  refine ⟨fun n p => rfl, fun lc rc => ⟨?_, ?_⟩⟩ <;>
    norm_num [BspNode.child_indices_based_on_point_pos, Vertex.sub_x, Vertex.sub_y]

/-- C2: the per-seg FOV test computes the direction angles `a1` (to the seg's
declared start) and `a2` (to its end), rejects when `a1 = a2`, rejects when
the normalized span `a1 - a2` reaches `π` (180 degrees), and otherwise
accepts exactly when, with `a1 - facing + H` and `a2 - facing + H`
(normalized), one of them is below the normalized `2H`, or the first is
below the normalized `2H + span`; in particular a seg whose two endpoint
direction angles are equal is always rejected, whatever the facing and
half-FOV `H`. -/
theorem c2_fov_test :
    ∀ (ppos : Vertex) (pangle halfFov : ℝ) (seg : Seg),
      (is_seg_in_player_fov ppos pangle halfFov seg = true ↔
        from_vector ppos seg.start ≠ from_vector ppos seg.seg_end ∧
        from_radians (from_vector ppos seg.start - from_vector ppos seg.seg_end) < Real.pi ∧
        (from_radians (from_vector ppos seg.start - pangle + halfFov) <
            from_radians (2 * halfFov) ∨
         from_radians (from_vector ppos seg.seg_end - pangle + halfFov) <
            from_radians (2 * halfFov) ∨
         from_radians (from_vector ppos seg.start - pangle + halfFov) <
            from_radians (2 * halfFov +
              from_radians (from_vector ppos seg.start - from_vector ppos seg.seg_end)))) ∧
      (from_vector ppos seg.start = from_vector ppos seg.seg_end →
        is_seg_in_player_fov ppos pangle halfFov seg = false) := by
  intro ppos pangle halfFov seg
  set a1 := from_vector ppos seg.start with ha1
  set a2 := from_vector ppos seg.seg_end with ha2
  have hb1 : angle_add (angle_sub a1 pangle) halfFov =
      from_radians (a1 - pangle + halfFov) := by
    unfold angle_add angle_sub
    exact from_radians_norm_add _ _
  have hb2 : angle_add (angle_sub a2 pangle) halfFov =
      from_radians (a2 - pangle + halfFov) := by
    unfold angle_add angle_sub
    exact from_radians_norm_add _ _
  have hful : angle_mul halfFov 2 = from_radians (2 * halfFov) := by
    unfold angle_mul
    exact from_radians_congr 0 (by push_cast; ring)
  have hful2 : angle_add (angle_mul halfFov 2) (angle_sub a1 a2) =
      from_radians (2 * halfFov + from_radians (a1 - a2)) := by
    unfold angle_add angle_mul angle_sub
    calc from_radians (from_radians (halfFov * 2) + from_radians (a1 - a2)) =
        from_radians (halfFov * 2 + from_radians (a1 - a2)) := from_radians_norm_add _ _
      _ = from_radians (2 * halfFov + from_radians (a1 - a2)) :=
        from_radians_congr 0 (by push_cast; ring)
  constructor
  · simp only [is_seg_in_player_fov, ← ha1, ← ha2]
    by_cases h1 : a1 = a2
    · simp [h1]
    · rw [if_neg h1]
      by_cases h2 : Real.pi ≤ angle_sub a1 a2
      · rw [if_pos h2]
        unfold angle_sub at h2
        simp [h1, not_lt.mpr h2]
      · rw [if_neg h2]
        rw [hb1, hb2, hful2, hful]
        unfold angle_sub at h2
        push_neg at h2
        simp [h1, h2]
  · intro h
    simp [is_seg_in_player_fov, ← ha1, ← ha2, h]

/-- Witness for C2: a seg with coinciding endpoints has equal endpoint
direction angles and is rejected. -/
theorem c2_fov_test_witness :
    is_seg_in_player_fov ⟨0, 0⟩ 0 1 segDegenerate = false :=
  (c2_fov_test ⟨0, 0⟩ 0 1 segDegenerate).2 rfl

/-- C1: the visibility walk starts at the root node index `nodeCount - 1`,
visits both children of every internal node — near child first, as chosen by
the point-side classification — with no early-out, and at every leaf (child
index with the top bit set) appends exactly the sub-sector's FOV-surviving
segs; the collected list is the concatenation, over the leaves in
near-to-far traversal order, of their FOV-surviving segs. (Both sides of the
equation share the walk's fuel parameter — see `render_node`.) -/
theorem c1_bsp_walk :
    ∀ (md : MapData) (ppos : Vertex) (pangle halfFov : ℝ) (fuel node_idx : Nat),
      (render_node md ppos pangle halfFov fuel node_idx =
        (visit_leaves md ppos fuel node_idx).flatMap
          (fun l => (md.sub_sector l).filter (is_seg_in_player_fov ppos pangle halfFov))) ∧
      (player_visible_segments md ppos pangle halfFov fuel =
        render_node md ppos pangle halfFov fuel md.root_bsp_node_idx) ∧
      (md.node_count ≤ 65536 → md.root_bsp_node_idx = md.node_count - 1) := by
  intro md ppos pangle halfFov fuel node_idx
  refine ⟨?_, rfl, ?_⟩
  · induction fuel generalizing node_idx with
    | zero => simp [render_node, visit_leaves]
    | succ n ih =>
        simp only [render_node, visit_leaves]
        by_cases h : node_idx &&& SSECTOR_FLAG = 0
        · rw [if_pos h, if_pos h, List.flatMap_append, ih, ih]
        · rw [if_neg h, if_neg h]
          simp [render_sub_sector]
  · intro h2
    unfold MapData.root_bsp_node_idx
    omega

/-- Witness for C1: a store with a single BSP node has root index
`nodeCount - 1 = 0`. -/
theorem c1_bsp_walk_witness :
    mdOneNode.node_count ≤ 65536 ∧ mdOneNode.root_bsp_node_idx = mdOneNode.node_count - 1 :=
  ⟨by decide, (c1_bsp_walk mdOneNode ⟨0, 0⟩ 0 1 0 0).2.2 (by decide)⟩

/-- C4 (failing-input evaluation): a LineDef laid out as the format's
invariant requires — right side present, left side the `0xFFFF` sentinel,
two-sided flag clear — trips the (swapped) sanity asserts of
`get_line_details` for every map store: the assert demands a present left
side, so the call panics (`none`) instead of returning the details. -/
theorem c4_one_sided_wall_asserts :
    ∀ md : MapData, get_line_details md ldOneSided = none := by
  intro md
  simp [get_line_details, ldOneSided]

/-- C5 (failing-input evaluation): a WAD whose single directory entry has
`start + size` equal to the file length (28) — a lump lying exactly within
the buffer — is rejected by the parser's `lump_end >= wad_len` check with
the lump-too-big error naming `E1M1`, so the whole load fails. -/
theorem c5_edge_lump_rejected :
    load wadEdgeLump true = .error (.lumpTooBig [69, 49, 77, 49]) := rfl

/-- C6: a level's map data is complete exactly when every one of its
required lumps is non-empty; when the directory ends a still-incomplete map
(the accumulator refuses a lump), the parse aborts with the incomplete-map
error naming the level, the loop propagates the error, and `load` then
returns it — no partial container. -/
theorem c6_incomplete_map_aborts :
    (∀ md : MapData, md.is_complete = true ↔ ∀ i : Fin 10, md.lumps i ≠ []) ∧
    (∀ (st : ParseState) (m : MapData) (name bytes : List Nat),
      st.curMap = some m → (m.add_lump name bytes).2 = false → m.is_complete = false →
      parseStep st name bytes = .error (.incompleteMap m.name)) ∧
    (∀ (wad : List Nat) (d i : Nat) (rest : List Nat) (st : ParseState)
        (nm bts : List Nat) (e : WadErr),
      parseDirEntry wad d i = .ok (nm, bts) → parseStep st nm bts = .error e →
      parseLoop wad d (i :: rest) st = .error e) ∧
    (∀ (wad : List Nat) (is_iwad : Bool) (e : WadErr),
      ¬ wad.length ≤ 16 →
      listSlice wad 0 4 = (if is_iwad then MAGIC_IWAD else MAGIC_PWAD) →
      parse_wad_lumps wad = .error e → load wad is_iwad = .error e) := by
  refine ⟨?_, ?_, ?_, ?_⟩
  · intro md
    simp [MapData.is_complete, List.all_eq_true, List.length_pos]
  · intro st m name bytes hcur hadd hinc
    simp [parseStep, hcur, hadd, hinc]
  · intro wad d i rest st nm bts e h1 h2
    simp only [parseLoop, h1, bind, Except.bind, h2]
  · intro wad is_iwad e h1 h2 h3
    simp only [load]
    rw [if_neg h1, if_neg (not_not_intro h2), h3]
    rfl

/-- Witness for C6: a fresh (all-lumps-empty) map accumulator hit by the
unrecognized lump name `X` aborts the step, and the loop propagates the
incomplete-map error. -/
theorem c6_incomplete_map_aborts_witness :
    parseStep stFreshMap [88] [] = .error (.incompleteMap [69, 49, 77, 49]) ∧
    parseLoop wadOneX 0 [0] stFreshMap = .error (.incompleteMap [69, 49, 77, 49]) :=
  ⟨c6_incomplete_map_aborts.2.1 stFreshMap (MapData.new [69, 49, 77, 49]) [88] []
      rfl (by decide) (by decide),
   c6_incomplete_map_aborts.2.2.1 wadOneX 0 0 [] stFreshMap [88] [0]
      (.incompleteMap [69, 49, 77, 49]) rfl
      (c6_incomplete_map_aborts.2.1 stFreshMap (MapData.new [69, 49, 77, 49]) [88] [0]
        rfl (by decide) (by decide))⟩

theorem and_shift_one_eq_zero (x k : Nat) : (x &&& (1 <<< k) == 0) = !x.testBit k := by
  rw [Nat.shiftLeft_eq, one_mul, Nat.and_two_pow]
  cases h : x.testBit k
  · simp
  · simp [(Nat.two_pow_pos k).ne']

/-- C8: the line-of-sight check is a pure lookup of bit
`monsterSectorIndex * sectorCount + playerSectorIndex` in the flattened
REJECT bitmap — byte `bit / 8`, bit `bit % 8` — and reports visible exactly
when that bit is clear (a set bit means NOT visible); being a plain
function of the store, it neither traverses nor mutates anything. -/
theorem c8_line_of_sight :
    ∀ (md : MapData) (pli moi : Nat),
      (moi * md.sector_count + pli) / 8 < (md.lumps IDX_REJECT).length →
      (md.check_line_of_sight pli moi = true ↔
        ((md.lumps IDX_REJECT).getD ((moi * md.sector_count + pli) / 8) 0).testBit
          ((moi * md.sector_count + pli) % 8) = false) := by
  intro md pli moi _h
  have h7 : (moi * md.sector_count + pli) &&& 7 = (moi * md.sector_count + pli) % 8 := by
    have h := Nat.and_pow_two_sub_one_eq_mod (moi * md.sector_count + pli) 3
    norm_num at h
    exact h
  have h8 : (moi * md.sector_count + pli) >>> 3 = (moi * md.sector_count + pli) / 8 := by
    rw [Nat.shiftRight_eq_div_pow]
  simp only [MapData.check_line_of_sight, h7, h8, and_shift_one_eq_zero, Bool.not_eq_true']

/-- Witness for C8: a one-sector store whose REJECT lump is the byte 1 —
bit (0,0) is set, so the pair is reported NOT visible. -/
theorem c8_line_of_sight_witness :
    (0 * mdRejectExample.sector_count + 0) / 8 < (mdRejectExample.lumps IDX_REJECT).length ∧
    (mdRejectExample.check_line_of_sight 0 0 = true ↔
      ((mdRejectExample.lumps IDX_REJECT).getD
        ((0 * mdRejectExample.sector_count + 0) / 8) 0).testBit
        ((0 * mdRejectExample.sector_count + 0) % 8) = false) :=
  ⟨by decide, c8_line_of_sight mdRejectExample 0 0 (by decide)⟩

theorem boundsStep_foldl (md : MapData) :
    ∀ (l : List Nat) (p : Vertex × Vertex),
      ((l.foldl (boundsStep md) p).1.x ≤ p.1.x ∧
        (l.foldl (boundsStep md) p).1.y ≤ p.1.y ∧
        p.2.x ≤ (l.foldl (boundsStep md) p).2.x ∧
        p.2.y ≤ (l.foldl (boundsStep md) p).2.y) ∧
      (∀ i ∈ l,
        (l.foldl (boundsStep md) p).1.x ≤ (md.vertex i).x ∧
        (l.foldl (boundsStep md) p).1.y ≤ (md.vertex i).y ∧
        (md.vertex i).x ≤ (l.foldl (boundsStep md) p).2.x ∧
        (md.vertex i).y ≤ (l.foldl (boundsStep md) p).2.y) ∧
      ((l.foldl (boundsStep md) p).1.x = p.1.x ∨
        ∃ i ∈ l, (l.foldl (boundsStep md) p).1.x = (md.vertex i).x) ∧
      ((l.foldl (boundsStep md) p).1.y = p.1.y ∨
        ∃ i ∈ l, (l.foldl (boundsStep md) p).1.y = (md.vertex i).y) ∧
      ((l.foldl (boundsStep md) p).2.x = p.2.x ∨
        ∃ i ∈ l, (l.foldl (boundsStep md) p).2.x = (md.vertex i).x) ∧
      ((l.foldl (boundsStep md) p).2.y = p.2.y ∨
        ∃ i ∈ l, (l.foldl (boundsStep md) p).2.y = (md.vertex i).y) := by
  intro l
  induction l with
  | nil => intro p; simp
  | cons i l ih =>
      intro p
      simp only [List.foldl_cons]
      obtain ⟨⟨hx1, hy1, hx2, hy2⟩, hmem, hax, hay, hbx, hby⟩ := ih (boundsStep md p i)
      have e1x : (boundsStep md p i).1.x = min p.1.x (md.vertex i).x := rfl
      have e1y : (boundsStep md p i).1.y = min p.1.y (md.vertex i).y := rfl
      have e2x : (boundsStep md p i).2.x = max p.2.x (md.vertex i).x := rfl
      have e2y : (boundsStep md p i).2.y = max p.2.y (md.vertex i).y := rfl
      rw [e1x] at hx1 hax
      rw [e1y] at hy1 hay
      rw [e2x] at hx2 hbx
      rw [e2y] at hy2 hby
      refine ⟨⟨le_trans hx1 (min_le_left _ _), le_trans hy1 (min_le_left _ _),
        le_trans (le_max_left _ _) hx2, le_trans (le_max_left _ _) hy2⟩, ?_, ?_, ?_, ?_, ?_⟩
      · intro j hj
        rcases List.mem_cons.mp hj with rfl | hj2
        · exact ⟨le_trans hx1 (min_le_right _ _), le_trans hy1 (min_le_right _ _),
            le_trans (le_max_right _ _) hx2, le_trans (le_max_right _ _) hy2⟩
        · exact hmem j hj2
      · rcases hax with h | ⟨j, hj, hjeq⟩
        · rcases min_choice p.1.x (md.vertex i).x with hm | hm
          · exact Or.inl (h.trans hm)
          · exact Or.inr ⟨i, List.mem_cons_self i l, h.trans hm⟩
        · exact Or.inr ⟨j, List.mem_cons_of_mem i hj, hjeq⟩
      · rcases hay with h | ⟨j, hj, hjeq⟩
        · rcases min_choice p.1.y (md.vertex i).y with hm | hm
          · exact Or.inl (h.trans hm)
          · exact Or.inr ⟨i, List.mem_cons_self i l, h.trans hm⟩
        · exact Or.inr ⟨j, List.mem_cons_of_mem i hj, hjeq⟩
      · rcases hbx with h | ⟨j, hj, hjeq⟩
        · rcases max_choice p.2.x (md.vertex i).x with hm | hm
          · exact Or.inl (h.trans hm)
          · exact Or.inr ⟨i, List.mem_cons_self i l, h.trans hm⟩
        · exact Or.inr ⟨j, List.mem_cons_of_mem i hj, hjeq⟩
      · rcases hby with h | ⟨j, hj, hjeq⟩
        · rcases max_choice p.2.y (md.vertex i).y with hm | hm
          · exact Or.inl (h.trans hm)
          · exact Or.inr ⟨i, List.mem_cons_self i l, h.trans hm⟩
        · exact Or.inr ⟨j, List.mem_cons_of_mem i hj, hjeq⟩

/-- C9: when the VERTEXES lump is assigned (and holds at least one vertex)
the single scan of `compute_map_bounds` produces exactly the componentwise
minimum and maximum over all vertices (each bound is both a bound and
attained); `add_lump` recomputes the box exactly when the assigned lump is
VERTEXES and leaves it untouched for every other name; and for the vertices
(0,0), (10,5), (-3,8) the box is min (-3,0), max (10,8). -/
theorem c9_bounding_box :
    (∀ md : MapData, 0 < md.vertex_count →
      (∀ i < md.vertex_count,
        md.compute_map_bounds.bound_min.x ≤ (md.vertex i).x ∧
        md.compute_map_bounds.bound_min.y ≤ (md.vertex i).y ∧
        (md.vertex i).x ≤ md.compute_map_bounds.bound_max.x ∧
        (md.vertex i).y ≤ md.compute_map_bounds.bound_max.y) ∧
      (∃ i < md.vertex_count, md.compute_map_bounds.bound_min.x = (md.vertex i).x) ∧
      (∃ i < md.vertex_count, md.compute_map_bounds.bound_min.y = (md.vertex i).y) ∧
      (∃ i < md.vertex_count, md.compute_map_bounds.bound_max.x = (md.vertex i).x) ∧
      (∃ i < md.vertex_count, md.compute_map_bounds.bound_max.y = (md.vertex i).y)) ∧
    (∀ (md : MapData) (nm bts : List Nat), nm ≠ NAME_VERTEXES →
      (md.add_lump nm bts).1.bound_min = md.bound_min ∧
      (md.add_lump nm bts).1.bound_max = md.bound_max) ∧
    (∀ (md : MapData) (bts : List Nat),
      (md.add_lump NAME_VERTEXES bts).1 =
        MapData.compute_map_bounds
          { md with lumps := Function.update md.lumps IDX_VERTEXES bts }) ∧
    (mdVertexExample.bound_min = ⟨-3, 0⟩ ∧ mdVertexExample.bound_max = ⟨10, 8⟩) := by
  refine ⟨?_, ?_, fun md bts => rfl, by decide⟩
  · intro md hc
    have hbmin : md.compute_map_bounds.bound_min =
        ((List.range' 1 (md.vertex_count - 1)).foldl (boundsStep md)
          (md.vertex 0, md.vertex 0)).1 := rfl
    have hbmax : md.compute_map_bounds.bound_max =
        ((List.range' 1 (md.vertex_count - 1)).foldl (boundsStep md)
          (md.vertex 0, md.vertex 0)).2 := rfl
    obtain ⟨⟨h0x, h0y, h0X, h0Y⟩, hmem, hax, hay, hbx, hby⟩ :=
      boundsStep_foldl md (List.range' 1 (md.vertex_count - 1)) (md.vertex 0, md.vertex 0)
    refine ⟨?_, ?_, ?_, ?_, ?_⟩
    · intro i hi
      rw [hbmin, hbmax]
      rcases Nat.eq_zero_or_pos i with rfl | hpos
      · exact ⟨h0x, h0y, h0X, h0Y⟩
      · exact hmem i (List.mem_range'.mpr ⟨i - 1, by omega, by omega⟩)
    · rw [hbmin]
      rcases hax with h | ⟨j, hj, hje⟩
      · exact ⟨0, hc, h⟩
      · obtain ⟨k, hk, hke⟩ := List.mem_range'.mp hj
        exact ⟨j, by omega, hje⟩
    · rw [hbmin]
      rcases hay with h | ⟨j, hj, hje⟩
      · exact ⟨0, hc, h⟩
      · obtain ⟨k, hk, hke⟩ := List.mem_range'.mp hj
        exact ⟨j, by omega, hje⟩
    · rw [hbmax]
      rcases hbx with h | ⟨j, hj, hje⟩
      · exact ⟨0, hc, h⟩
      · obtain ⟨k, hk, hke⟩ := List.mem_range'.mp hj
        exact ⟨j, by omega, hje⟩
    · rw [hbmax]
      rcases hby with h | ⟨j, hj, hje⟩
      · exact ⟨0, hc, h⟩
      · obtain ⟨k, hk, hke⟩ := List.mem_range'.mp hj
        exact ⟨j, by omega, hje⟩
  · intro md nm bts hne
    rcases h : mapLumpIdx nm with _ | idx
    · simp [MapData.add_lump, h]
    · have hidx : ¬ idx = IDX_VERTEXES := by
        intro he
        subst he
        apply hne
        by_contra hne2
        unfold mapLumpIdx at h
        rw [if_neg hne2] at h
        split_ifs at h <;> exact absurd h (by decide)
      simp [MapData.add_lump, h, if_neg hidx]

/-- Witness for C9: the example store has three vertices, its minimum x is
attained, and adding a non-VERTEXES lump leaves the box alone. -/
theorem c9_bounding_box_witness :
    0 < mdVertexExample.vertex_count ∧
    (∃ i < mdVertexExample.vertex_count,
      mdVertexExample.compute_map_bounds.bound_min.x = (mdVertexExample.vertex i).x) ∧
    (mdVertexExample.add_lump NAME_SEGS [0]).1.bound_min = mdVertexExample.bound_min :=
  ⟨by decide, (c9_bounding_box.1 mdVertexExample (by decide)).2.1,
    (c9_bounding_box.2.1 mdVertexExample NAME_SEGS [0] (by decide)).1⟩

theorem add_lump_accepted {nm : List Nat} (m : MapData) (bts : List Nat)
    (h : (mapLumpIdx nm).isSome = true) : (m.add_lump nm bts).2 = true := by
  obtain ⟨idx, hidx⟩ := Option.isSome_iff_exists.mp h
  simp only [MapData.add_lump, hidx]
  split <;> rfl

/-- C10: when the directory ends while a map accumulator is still active —
every remaining entry carrying a name the accumulator recognizes — the loop
finishes without validating or storing that map; with the palette
initialized and no other map collected, the final at-least-one-map
validation then fails with the maps-not-found error, complete though the
trailing level may be. -/
theorem c10_trailing_map_never_stored :
    ∀ (wad : List Nat) (d : Nat) (idxs : List Nat) (st : ParseState),
      st.curMap.isSome = true → st.maps = [] → 0 < st.palCnt → 0 < st.cmapCnt →
      (∀ i ∈ idxs, ∃ nm bts, parseDirEntry wad d i = .ok (nm, bts) ∧
        (mapLumpIdx nm).isSome = true) →
      ∃ st2, parseLoop wad d idxs st = .ok st2 ∧ st2.maps = [] ∧
        st2.curMap.isSome = true ∧ validate_collected_data st2 = .error .noMaps := by
  intro wad d idxs
  induction idxs with
  | nil =>
      intro st hcur hmaps hpal hcmap _
      refine ⟨st, rfl, hmaps, hcur, ?_⟩
      simp [validate_collected_data, hmaps, hpal, hcmap]
  | cons i rest ih =>
      intro st hcur hmaps hpal hcmap hall
      obtain ⟨nm, bts, hentry, hsome⟩ := hall i (List.mem_cons_self i rest)
      obtain ⟨m, hm⟩ := Option.isSome_iff_exists.mp hcur
      have hacc : (m.add_lump nm bts).2 = true := add_lump_accepted m bts hsome
      have hstep : parseStep st nm bts =
          .ok { st with curMap := some (m.add_lump nm bts).1 } := by
        simp [parseStep, hm, hacc]
      obtain ⟨st2, hloop, h2, h3, h4⟩ :=
        ih { st with curMap := some (m.add_lump nm bts).1 } rfl hmaps hpal hcmap
          (fun j hj => hall j (List.mem_cons_of_mem i hj))
      exact ⟨st2, by simp only [parseLoop, hentry, bind, Except.bind, hstep, hloop], h2, h3, h4⟩

/-- Witness for C10: a directory holding one final `THINGS` entry while a map
with all ten lumps non-empty is accumulating ends with that map unstored and
the maps-not-found validation error. -/
theorem c10_trailing_map_never_stored_witness :
    (∃ st2, parseLoop wadOneThings 0 [0] stMidMap = .ok st2 ∧ st2.maps = [] ∧
      st2.curMap.isSome = true ∧ validate_collected_data st2 = .error .noMaps) ∧
    stMidMap.curMap.map MapData.is_complete = some true :=
  ⟨c10_trailing_map_never_stored wadOneThings 0 [0] stMidMap rfl rfl (by decide) (by decide)
      (by
        intro i hi
        rw [List.mem_singleton] at hi
        subst hi
        exact ⟨NAME_THINGS, [0], rfl, by decide⟩),
    rfl⟩

end RusDoom
